import Mathlib

/-!
Verification development for the agent_engine repository.

The development shallowly embeds the provider/model selection and failover
engine of the repository: the configuration store (conf/config.go), the
engine state holder (agent/engine.go) and the failover query handler
(agent/query_handler.go).  Machine-level concerns (file I/O for loading the
YAML configuration, the network call of the completion gateway, logging)
are modelled at the collaborator boundary: the gateway is an explicit
function parameter and the configuration is passed in already loaded.
-/

set_option maxRecDepth 4000

/-! ## JSON validity and decoding (model of Go encoding/json as used by the handler)

The query handler calls json.Valid and, when valid, json.Unmarshal into a
struct with a single field tagged json:"query".  The definitions below
model the JSON grammar accepted by Go's scanner (RFC 8259: whitespace,
null / true / false, numbers without leading zeros, strings with the eight
escapes and \uXXXX, arrays and objects) and the relevant unmarshal
behaviour (top-level object or null; field keys matched case-insensitively
against the tag "query"; a string value assigns, null leaves the zero
value, any other value is a type error; later duplicate keys overwrite). -/

/-- JSON values produced by the scanner model. -/
inductive JVal where
  | jnull
  | jbool (b : Bool)
  | jnum (raw : String)
  | jstr (s : String)
  | jarr (elems : List JVal)
  | jobj (fields : List (String × JVal))

/-- Whitespace accepted between JSON tokens by Go's scanner. -/
def isJsonWs (c : Char) : Bool :=
  c == ' ' || c == '\t' || c == '\n' || c == '\r'

/-- Drop leading JSON whitespace. -/
def skipWs : List Char → List Char
  | [] => []
  | c :: cs => if isJsonWs c then skipWs cs else c :: cs

/-- Longest prefix of decimal digits, together with the rest. -/
def spanDigits : List Char → List Char × List Char
  | [] => ([], [])
  | c :: cs =>
    if c.isDigit then
      let (d, r) := spanDigits cs
      (c :: d, r)
    else ([], c :: cs)

/-- Integer part of a JSON number: a single 0, or a nonzero digit followed
by digits (leading zeros are rejected, as in Go's scanner). -/
def parseIntPart : List Char → Option (List Char × List Char)
  | [] => none
  | c :: cs =>
    if c == '0' then some ([c], cs)
    else if c.isDigit then
      let (d, r) := spanDigits cs
      some (c :: d, r)
    else none

/-- Optional fraction part: a dot must be followed by at least one digit. -/
def parseFracPart : List Char → Option (List Char × List Char)
  | '.' :: cs =>
    match spanDigits cs with
    | ([], _) => none
    | (d, r) => some ('.' :: d, r)
  | other => some ([], other)

/-- Optional exponent part: e or E, optional sign, at least one digit. -/
def parseExpPart : List Char → Option (List Char × List Char)
  | [] => some ([], [])
  | c :: cs =>
    if c == 'e' || c == 'E' then
      match cs with
      | [] => none
      | s :: r =>
        if s == '+' || s == '-' then
          match spanDigits r with
          | ([], _) => none
          | (d, r2) => some (c :: s :: d, r2)
        else
          match spanDigits (s :: r) with
          | ([], _) => none
          | (d, r2) => some (c :: d, r2)
    else some ([], c :: cs)

/-- A JSON number starting at the given characters (optional minus sign,
integer part, optional fraction, optional exponent). -/
def parseNumber (input : List Char) : Option (List Char × List Char) :=
  let (minus, rest) :=
    match input with
    | '-' :: r => ([('-' : Char)], r)
    | r => (([] : List Char), r)
  match parseIntPart rest with
  | none => none
  | some (ip, r1) =>
    match parseFracPart r1 with
    | none => none
    | some (fp, r2) =>
      match parseExpPart r2 with
      | none => none
      | some (ep, r3) => some (minus ++ ip ++ fp ++ ep, r3)

/-- Single-character escapes accepted in JSON strings. -/
def escChar (e : Char) : Option Char :=
  if e == '"' then some '"'
  else if e == '\\' then some '\\'
  else if e == '/' then some '/'
  else if e == 'b' then some '\x08'
  else if e == 'f' then some '\x0c'
  else if e == 'n' then some '\n'
  else if e == 'r' then some '\r'
  else if e == 't' then some '\t'
  else none

/-- Hexadecimal digit test for the \uXXXX escape. -/
def isHexDigit (c : Char) : Bool :=
  c.isDigit || ('a' ≤ c && c ≤ 'f') || ('A' ≤ c && c ≤ 'F')

/-- Value of a hexadecimal digit. -/
def hexVal (c : Char) : Nat :=
  if c.isDigit then c.toNat - '0'.toNat
  else if 'a' ≤ c && c ≤ 'f' then c.toNat - 'a'.toNat + 10
  else c.toNat - 'A'.toNat + 10

/-- Body of a JSON string after the opening quote: returns the decoded
characters and the rest after the closing quote.  Raw control characters
below 0x20 are rejected; escapes are decoded. -/
def parseStringBody : List Char → Option (List Char × List Char)
  | [] => none
  | c :: cs =>
    if c == '"' then some ([], cs)
    else if c == '\\' then
      match cs with
      | [] => none
      | e :: cs2 =>
        if e == 'u' then
          match cs2 with
          | h1 :: h2 :: h3 :: h4 :: cs3 =>
            if isHexDigit h1 && isHexDigit h2 && isHexDigit h3 && isHexDigit h4 then
              match parseStringBody cs3 with
              | some (s, r) =>
                some (Char.ofNat (((hexVal h1 * 16 + hexVal h2) * 16 + hexVal h3) * 16
                        + hexVal h4) :: s, r)
              | none => none
            else none
          | _ => none
        else
          match escChar e with
          | some d =>
            match parseStringBody cs2 with
            | some (s, r) => some (d :: s, r)
            | none => none
          | none => none
    else if c.toNat < 32 then none
    else
      match parseStringBody cs with
      | some (s, r) => some (c :: s, r)
      | none => none

mutual

/-- One JSON value starting at the input (leading whitespace allowed),
fuelled to make the recursion structural. -/
def parseVal : Nat → List Char → Option (JVal × List Char)
  | 0, _ => none
  | fuel + 1, input =>
    match skipWs input with
    | [] => none
    | c :: cs =>
      if c == '"' then
        match parseStringBody cs with
        | some (s, r) => some (.jstr (String.mk s), r)
        | none => none
      else if c == '\x7b' then parseObjBody fuel cs []
      else if c == '[' then parseArrBody fuel cs []
      else if c == 'n' then
        match cs with
        | 'u' :: 'l' :: 'l' :: r => some (.jnull, r)
        | _ => none
      else if c == 't' then
        match cs with
        | 'r' :: 'u' :: 'e' :: r => some (.jbool true, r)
        | _ => none
      else if c == 'f' then
        match cs with
        | 'a' :: 'l' :: 's' :: 'e' :: r => some (.jbool false, r)
        | _ => none
      else
        match parseNumber (c :: cs) with
        | some (d, r) => some (.jnum (String.mk d), r)
        | none => none

/-- Elements of a JSON array after the opening bracket (accumulator holds
the elements parsed so far, in reverse). -/
def parseArrBody : Nat → List Char → List JVal → Option (JVal × List Char)
  | 0, _, _ => none
  | fuel + 1, input, acc =>
    match skipWs input with
    | [] => none
    | c :: cs =>
      if c == ']' && acc.isEmpty then some (.jarr [], cs)
      else
        match parseVal fuel input with
        | none => none
        | some (v, r) =>
          match skipWs r with
          | ',' :: r2 => parseArrBody fuel r2 (v :: acc)
          | ']' :: r2 => some (.jarr (v :: acc).reverse, r2)
          | _ => none

/-- Members of a JSON object after the opening brace (accumulator holds
the members parsed so far, in reverse). -/
def parseObjBody : Nat → List Char → List (String × JVal) → Option (JVal × List Char)
  | 0, _, _ => none
  | fuel + 1, input, acc =>
    match skipWs input with
    | [] => none
    | c :: cs =>
      if c == '\x7d' && acc.isEmpty then some (.jobj [], cs)
      else if c == '"' then
        match parseStringBody cs with
        | none => none
        | some (k, r1) =>
          match skipWs r1 with
          | ':' :: r2 =>
            match parseVal fuel r2 with
            | none => none
            | some (v, r3) =>
              match skipWs r3 with
              | ',' :: r4 => parseObjBody fuel r4 ((String.mk k, v) :: acc)
              | '\x7d' :: r4 => some (.jobj ((String.mk k, v) :: acc).reverse, r4)
              | _ => none
          | _ => none
      else none

end

/-- Parse a whole string as one JSON value; trailing whitespace only.  The
fuel 2 * length + 2 dominates the recursion depth, in which every two
nested calls consume at least one input character. -/
def parseJson (s : String) : Option JVal :=
  match parseVal (2 * s.length + 2) s.data with
  | some (v, r) => if (skipWs r).isEmpty then some v else none
  | none => none

/-- Model of Go json.Valid: the input is exactly one JSON value. -/
def jsonValid (s : String) : Bool :=
  (parseJson s).isSome

/-- ASCII lowercase of one character. -/
def lowerAscii (c : Char) : Char :=
  if 'A' ≤ c && c ≤ 'Z' then Char.ofNat (c.toNat + 32) else c

/-- Case-insensitive match of an object key against the field tag
"query".  Go uses strings.EqualFold; for this all-ASCII tag the two
coincide (no non-ASCII character simple-case-folds to q, u, e, r or y),
and the ASCII fold keeps the definition kernel-computable. -/
def keyMatchesQuery (k : String) : Bool :=
  String.mk (k.data.map lowerAscii) == "query"

/-- Fold the members of the top-level object into the single struct field
tagged "query": keys are matched case-insensitively (Go falls back to
EqualFold when no exact field matches), a string value assigns, null keeps
the current value, any other value is an unmarshal type error; decoding
aborts at the first error, later duplicate keys overwrite. -/
def foldQueryField : List (String × JVal) → String → Except Unit String
  | [], acc => .ok acc
  | (k, v) :: rest, acc =>
    if keyMatchesQuery k then
      match v with
      | .jstr s => foldQueryField rest s
      | .jnull => foldQueryField rest acc
      | _ => .error ()
    else foldQueryField rest acc

/-- Model of json.Unmarshal of the parameter text into the handler's
QueryReq struct: a top-level object decodes its "query" member, a
top-level null leaves the zero value, any other top-level value is a type
error. -/
def unmarshalQueryReq (s : String) : Except Unit String :=
  match parseJson s with
  | none => .error ()
  | some .jnull => .ok ""
  | some (.jobj fields) => foldQueryField fields ""
  | some _ => .error ()

/-- Prompt extraction of QueryHandler.Handle: if the parameter text is
valid JSON, unmarshal it and use the extracted query field (propagating an
unmarshal failure); otherwise the entire text is the prompt verbatim. -/
def parsePrompt (params : String) : Except Unit String :=
  if jsonValid params then unmarshalQueryReq params
  else .ok params

/-! ## Configuration store (conf/config.go) -/

/-- Configuration record of one LLM provider. -/
structure ProviderConfig where
  Name : String
  ApiKey : String
  BaseUrl : String
  Model : List String
deriving Repr, DecidableEq

/-- Whole configuration: the ordered provider list. -/
structure Config where
  Provider : List ProviderConfig
deriving Repr, DecidableEq

/-- Default provider: the first entry; none models the error when the
provider list is empty. -/
def Config.GetDefaultProvider (c : Config) : Option ProviderConfig :=
  c.Provider.head?

/-- Linear scan by name, first match wins; none models the not-found
error. -/
def Config.GetProviderByName (c : Config) (name : String) : Option ProviderConfig :=
  c.Provider.find? (fun p => p.Name == name)

/-- Default model of a provider: the first entry; none models the error
when the model list is empty. -/
def ProviderConfig.GetDefaultModel (p : ProviderConfig) : Option String :=
  p.Model.head?

/-- Linear membership test of a model identifier. -/
def ProviderConfig.HasModel (p : ProviderConfig) (modelId : String) : Bool :=
  p.Model.any (fun m => m == modelId)

/-! ## Engine (agent/engine.go) -/

/-- Engine state: public ModelId and BaseUrl, private apiKey, configPath,
config and providerName.  An unloaded configuration (Go nil pointer) is
modelled by none. -/
structure Engine where
  ModelId : String
  BaseUrl : String
  apiKey : String
  configPath : String
  config : Option Config
  providerName : String
deriving Repr, DecidableEq

/-- Error classification of the engine operations, mirroring the distinct
error messages of engine.go. -/
inductive EngineError where
  | configNotLoaded
  | noProvider
  | providerNotFound (name : String)
  | noModel (provider : String)
  | unsupportedModel (provider : String) (modelId : String)
deriving Repr, DecidableEq

/-- The Go zero value of Engine: every field empty, configuration not
loaded. -/
def Engine.uninit : Engine :=
  { ModelId := "", BaseUrl := "", apiKey := "", configPath := "",
    config := none, providerName := "" }

/-- Controlled accessor of the private credential. -/
def Engine.GetApiKey (e : Engine) : String :=
  e.apiKey

/-- Plain accessor of the current provider name (no failure path in the
source). -/
def Engine.GetCurrentProviderName (e : Engine) : String :=
  e.providerName

/-- Plain accessor of the stored configuration path (no failure path in the
source). -/
def Engine.GetConfigPath (e : Engine) : String :=
  e.configPath

/-- All provider names in configuration order. -/
def Engine.GetAvailableProviders (e : Engine) : Except EngineError (List String) :=
  match e.config with
  | none => .error .configNotLoaded
  | some cfg => .ok (cfg.Provider.map (fun p => p.Name))

/-- Model list of the current provider. -/
def Engine.GetAvailableModels (e : Engine) : Except EngineError (List String) :=
  match e.config with
  | none => .error .configNotLoaded
  | some cfg =>
    match cfg.GetProviderByName e.providerName with
    | none => .error (.providerNotFound e.providerName)
    | some provider => .ok provider.Model

/-- Provider name to model list, for every configured provider.  Go builds
a map keyed by name; modelled as the association list in configuration
order. -/
def Engine.GetAllModels (e : Engine) : Except EngineError (List (String × List String)) :=
  match e.config with
  | none => .error .configNotLoaded
  | some cfg => .ok (cfg.Provider.map (fun p => (p.Name, p.Model)))

/-- Provider name to full provider record.  Go builds a map of pointers
into the configuration; modelled as the association list in configuration
order, each entry carrying the complete record. -/
def Engine.GetAllProvidersInfo (e : Engine) : Except EngineError (List (String × ProviderConfig)) :=
  match e.config with
  | none => .error .configNotLoaded
  | some cfg => .ok (cfg.Provider.map (fun p => (p.Name, p)))

/-- Switch to a provider, resolving the model as in engine.go: empty model
id means the provider's default; on success all four selection fields are
replaced.  An error return leaves the caller's engine untouched (the Go
code returns before any assignment). -/
def Engine.SwitchProvider (e : Engine) (providerName : String) (modelId : String) :
    Except EngineError Engine :=
  match e.config with
  | none => .error .configNotLoaded
  | some cfg =>
    match cfg.GetProviderByName providerName with
    | none => .error (.providerNotFound providerName)
    | some provider =>
      let modelRes : Except EngineError String :=
        if modelId == "" then
          match provider.GetDefaultModel with
          | some m => .ok m
          | none => .error (.noModel provider.Name)
        else if provider.HasModel modelId then .ok modelId
        else .error (.unsupportedModel provider.Name modelId)
      match modelRes with
      | .error er => .error er
      | .ok finalModelId =>
        .ok { e with providerName := provider.Name, apiKey := provider.ApiKey,
                     BaseUrl := provider.BaseUrl, ModelId := finalModelId }

/-- Switch the model within the current provider: verify membership, then
update only ModelId.  An error return leaves the caller's engine untouched
(the Go code returns before the assignment). -/
def Engine.SwitchModel (e : Engine) (modelId : String) : Except EngineError Engine :=
  match e.config with
  | none => .error .configNotLoaded
  | some cfg =>
    match cfg.GetProviderByName e.providerName with
    | none => .error (.providerNotFound e.providerName)
    | some provider =>
      if provider.HasModel modelId then .ok { e with ModelId := modelId }
      else .error (.unsupportedModel e.providerName modelId)

/-- NewEngineFromConfig after the configuration has been loaded from the
file: resolve the provider (default when the name is empty), resolve the
model (default when the id is empty, membership check otherwise), then
populate the engine.  File loading and absolute-path conversion are
outside the embedding; the already-absolute path is passed in. -/
def NewEngineFromLoadedConfig (absConfigPath : String) (config : Config)
    (providerName : String) (modelId : String) : Except EngineError Engine :=
  let providerRes : Except EngineError ProviderConfig :=
    if providerName == "" then
      match config.GetDefaultProvider with
      | some p => .ok p
      | none => .error .noProvider
    else
      match config.GetProviderByName providerName with
      | some p => .ok p
      | none => .error (.providerNotFound providerName)
  match providerRes with
  | .error er => .error er
  | .ok provider =>
    let modelRes : Except EngineError String :=
      if modelId == "" then
        match provider.GetDefaultModel with
        | some m => .ok m
        | none => .error (.noModel provider.Name)
      else if provider.HasModel modelId then .ok modelId
      else .error (.unsupportedModel provider.Name modelId)
    match modelRes with
    | .error er => .error er
    | .ok finalModelId =>
      .ok { ModelId := finalModelId, BaseUrl := provider.BaseUrl,
            apiKey := provider.ApiKey, configPath := absConfigPath,
            config := some config, providerName := provider.Name }

/-! ## Failover dispatcher (agent/query_handler.go, QueryHandler.Handle)

The completion gateway is the external collaborator: a function of the
call index (so that a run is determined by a sequence of gateway
outcomes), the API key, the base URL, the model identifier and the prompt.
The random source rand.New(rand.NewSource(time.Now().UnixNano())) is
modelled by a stream of naturals; the i-th rnd.Intn(n) call is the i-th
stream element reduced mod n, so quantifying over streams covers every
possible sequence of in-range draws. -/

/-- Decidable equality of Except values, needed so that concrete dispatch
outcomes can be compared by evaluation. -/
instance exceptDecEq {ε α : Type} [DecidableEq ε] [DecidableEq α] :
    DecidableEq (Except ε α) := fun a b =>
  match a, b with
  | .error x, .error y =>
    if h : x = y then isTrue (by rw [h]) else isFalse (fun hc => by cases hc; exact h rfl)
  | .error _, .ok _ => isFalse (fun hc => by cases hc)
  | .ok _, .error _ => isFalse (fun hc => by cases hc)
  | .ok x, .ok y =>
    if h : x = y then isTrue (by rw [h]) else isFalse (fun hc => by cases hc; exact h rfl)

/-- Gateway failure; the dispatcher never inspects it beyond non-nil. -/
abbrev GatewayError := String

/-- Successful gateway outcome: reply text and reasoning text. -/
structure Completion where
  reply : String
  think : String
deriving Repr, DecidableEq

/-- Completion gateway: call index, apiKey, baseUrl, model, prompt. -/
abbrev Gateway := Nat → String → String → String → String → Except GatewayError Completion

/-- The response map built by the handler on success. -/
structure QueryResult where
  query : String
  reply : String
  think : String
  model_used : String
  provider_used : String
  attempts : Nat
deriving Repr, DecidableEq

/-- Error classification of one Handle run, mirroring the four distinct
error returns of the handler. -/
inductive HandleError where
  /-- json.Unmarshal of the parameter text failed. -/
  | unmarshalFailed
  /-- GetAvailableModels failed; wraps the engine error. -/
  | getModelsFailed (e : EngineError)
  /-- The final attempt's gateway call failed; wraps lastErr. -/
  | allAttemptsFailed (last : GatewayError)
  /-- The fall-through return after the loop exits without success (break
  on an empty untried list, or no iteration at all); it formats the
  function-level err, which is nil there, and does not wrap lastErr. -/
  | unknownExit
deriving Repr, DecidableEq

/-- One gateway call recorded in a run: the engine state at the moment of
the call (the model attempted is engineAt.ModelId) and the 1-based attempt
number. -/
structure AttemptCall where
  engineAt : Engine
  attempt : Nat
deriving Repr, DecidableEq

/-- Everything observable about one Handle run: the returned response or
error, the engine state after return, and the recorded gateway calls. -/
structure DispatchOutcome where
  rsp : Except HandleError QueryResult
  engine : Engine
  calls : List AttemptCall
deriving Repr, DecidableEq

/-- Result of the gateway-call section of one loop iteration. -/
inductive CallOutcome where
  /-- The function returns (success, or final-attempt failure). -/
  | done (r : Except HandleError QueryResult)
  /-- The call failed with retries remaining; carries the new lastErr. -/
  | retry (ge : GatewayError)
deriving Repr, DecidableEq

/-- The gateway call of one iteration: invoke the gateway with the current
engine's credentials and model; on failure either retry (attempt below
maxAttempts) or return the all-attempts-failed error wrapping the failure
just recorded into lastErr; on success build the response map. -/
def tryModel (gw : Gateway) (query : String) (maxAttempts : Nat)
    (engine : Engine) (attempt : Nat) (callIdx : Nat) : CallOutcome :=
  match gw callIdx engine.GetApiKey engine.BaseUrl engine.ModelId query with
  | .error ge =>
    if attempt < maxAttempts then .retry ge
    else .done (.error (.allAttemptsFailed ge))
  | .ok completion =>
    .done (.ok { query := query, reply := completion.reply, think := completion.think,
                 model_used := engine.ModelId,
                 provider_used := engine.GetCurrentProviderName,
                 attempts := attempt })

/-- The attempt loop of QueryHandler.Handle.  fuel is the number of
iterations the for-loop may still run (maxAttempts - attempt + 1); fuel 0
is the loop condition turning false, which falls through to the
unknown-error return.  At attempt 1 the current model is used without a
switch; later attempts filter the untried models, break to the
fall-through return when none remain, draw one at the random index,
switch to it (a switch failure advances the loop without a gateway call
and without marking the model tried), mark it tried and call the gateway.
rngIdx counts rnd.Intn calls, callIdx counts gateway calls, trace records
the gateway calls made so far. -/
def handleLoop (gw : Gateway) (rng : Nat → Nat) (query : String)
    (availableModels : List String) (maxAttempts : Nat) :
    Nat → Engine → List String → Nat → Nat → Nat → Option GatewayError →
    List AttemptCall → DispatchOutcome
  | 0, engine, _, _, _, _, _, trace =>
    { rsp := .error .unknownExit, engine := engine, calls := trace }
  | fuel + 1, engine, triedModels, attempt, rngIdx, callIdx, lastErr, trace =>
    if 1 < attempt then
      let untriedModels := availableModels.filter (fun m => !(triedModels.contains m))
      if untriedModels.isEmpty then
        { rsp := .error .unknownExit, engine := engine, calls := trace }
      else
        let idx := rng rngIdx % untriedModels.length
        let newModelId := untriedModels.getD idx ""
        match engine.SwitchModel newModelId with
        | .error _ =>
          handleLoop gw rng query availableModels maxAttempts fuel engine triedModels
            (attempt + 1) (rngIdx + 1) callIdx lastErr trace
        | .ok engine2 =>
          let tried2 := newModelId :: triedModels
          match tryModel gw query maxAttempts engine2 attempt callIdx with
          | .done r =>
            { rsp := r, engine := engine2, calls := trace ++ [{ engineAt := engine2, attempt := attempt }] }
          | .retry ge =>
            handleLoop gw rng query availableModels maxAttempts fuel engine2 tried2
              (attempt + 1) (rngIdx + 1) (callIdx + 1) (some ge)
              (trace ++ [{ engineAt := engine2, attempt := attempt }])
    else
      match tryModel gw query maxAttempts engine attempt callIdx with
      | .done r =>
        { rsp := r, engine := engine, calls := trace ++ [{ engineAt := engine, attempt := attempt }] }
      | .retry ge =>
        handleLoop gw rng query availableModels maxAttempts fuel engine triedModels
          (attempt + 1) rngIdx (callIdx + 1) (some ge)
          (trace ++ [{ engineAt := engine, attempt := attempt }])

/-- QueryHandler.Handle: extract the prompt, record the original model id,
fetch the available models of the current provider (failing fast on
error), seed the tried set with the original model, bound the attempts by
min(3, number of available models) and run the loop; the deferred
restoration writes the original model id back into whatever engine state
the run ends with, on success and on failure alike. -/
def QueryHandler.Handle (gw : Gateway) (rng : Nat → Nat) (engine : Engine)
    (params : String) : DispatchOutcome :=
  match parsePrompt params with
  | .error _ => { rsp := .error .unmarshalFailed, engine := engine, calls := [] }
  | .ok query =>
    let originalModelId := engine.ModelId
    match engine.GetAvailableModels with
    | .error er =>
      { rsp := .error (.getModelsFailed er),
        engine := { engine with ModelId := originalModelId }, calls := [] }
    | .ok availableModels =>
      let triedModels := [originalModelId]
      let maxAttempts := if availableModels.length < 3 then availableModels.length else 3
      let out := handleLoop gw rng query availableModels maxAttempts maxAttempts
        engine triedModels 1 0 0 none []
      { rsp := out.rsp, engine := { out.engine with ModelId := originalModelId },
        calls := out.calls }

/-- The models attempted in a run, in call order. -/
def attemptedModels (calls : List AttemptCall) : List String :=
  calls.map (fun c => c.engineAt.ModelId)

/-- Agreement of two engine states on every field other than ModelId: the
frame the dispatcher must not touch. -/
def agreesExceptModelId (a b : Engine) : Prop :=
  a.BaseUrl = b.BaseUrl ∧ a.apiKey = b.apiKey ∧ a.configPath = b.configPath ∧
  a.config = b.config ∧ a.providerName = b.providerName

/-! ## Helper lemmas -/

/-- A successful SwitchModel changes only ModelId. -/
theorem switchModel_ok {e : Engine} {m : String} {e2 : Engine}
    (h : e.SwitchModel m = Except.ok e2) : e2 = { e with ModelId := m } := by
  unfold Engine.SwitchModel at h
  cases hc : e.config with
  | none => simp only [hc] at h; cases h
  | some cfg =>
    simp only [hc] at h
    cases hp : cfg.GetProviderByName e.providerName with
    | none => simp only [hp] at h; cases h
    | some p =>
      simp only [hp] at h
      by_cases hm : p.HasModel m
      · rw [if_pos hm] at h
        cases h
        rfl
      · rw [if_neg hm] at h
        cases h

/-- Membership in the model list makes HasModel true. -/
theorem hasModel_of_mem {p : ProviderConfig} {m : String} (h : m ∈ p.Model) :
    p.HasModel m = true := by
  simpa [ProviderConfig.HasModel] using h

/-- SwitchModel succeeds on a member of the current provider's list. -/
theorem switchModel_succeeds {e : Engine} {cfg : Config} {p : ProviderConfig} {m : String}
    (hc : e.config = some cfg) (hp : cfg.GetProviderByName e.providerName = some p)
    (hm : p.HasModel m = true) :
    e.SwitchModel m = Except.ok { e with ModelId := m } := by
  unfold Engine.SwitchModel
  simp only [hc, hp, hm, if_true]

/-- GetAvailableModels under a resolvable provider. -/
theorem getAvailableModels_eq {e : Engine} {cfg : Config} {p : ProviderConfig}
    (hc : e.config = some cfg) (hp : cfg.GetProviderByName e.providerName = some p) :
    e.GetAvailableModels = Except.ok p.Model := by
  unfold Engine.GetAvailableModels
  simp only [hc, hp]

/-- The Go maxAttempts computation is min 3 (number of models). -/
theorem maxAttempts_eq_min (n : Nat) : (if n < 3 then n else 3) = min 3 n := by
  rw [Nat.min_def]
  split <;> split <;> omega

/-- The frame agreement is preserved by an update of ModelId alone. -/
theorem agreesExceptModelId_update {e e0 : Engine} {m : String}
    (h : agreesExceptModelId e e0) : agreesExceptModelId { e with ModelId := m } e0 := h


/-- Each loop iteration makes at most one gateway call, so a run with the
given fuel grows the trace by at most fuel calls. -/
theorem handleLoop_calls_length (gw : Gateway) (rng : Nat → Nat) (q : String)
    (ms : List String) (mx : Nat) :
    ∀ fuel e tried a ri ci le tr,
      (handleLoop gw rng q ms mx fuel e tried a ri ci le tr).calls.length ≤
        tr.length + fuel := by
  intro fuel
  induction fuel with
  | zero =>
    intro e tried a ri ci le tr
    simp [handleLoop]
  | succ n ih =>
    intro e tried a ri ci le tr
    simp only [handleLoop]
    split
    · split
      · simp
      · split
        · have h1 := ih e tried (a + 1) (ri + 1) ci le tr
          omega
        · split
          · simp only [List.length_append, List.length_singleton]
            omega
          · rename_i engine2 heq2 co ge heq3
            have h1 := ih engine2
              (((ms.filter (fun m => !tried.contains m)).getD
                  (rng ri % (ms.filter (fun m => !tried.contains m)).length) "") :: tried)
              (a + 1) (ri + 1) (ci + 1) (some ge)
              (tr ++ [{ engineAt := engine2, attempt := a }])
            simp only [List.length_append, List.length_singleton] at h1
            omega
    · split
      · simp only [List.length_append, List.length_singleton]
        omega
      · rename_i co ge heq3
        have h1 := ih e tried (a + 1) ri (ci + 1) (some ge)
          (tr ++ [{ engineAt := e, attempt := a }])
        simp only [List.length_append, List.length_singleton] at h1
        omega

/-- The loop only ever mutates ModelId: every engine state it passes to
the gateway and the engine state it ends with agree with the reference
state on every other field. -/
theorem handleLoop_frame (gw : Gateway) (rng : Nat → Nat) (q : String)
    (ms : List String) (mx : Nat) (e0 : Engine) :
    ∀ fuel e tried a ri ci le tr,
      agreesExceptModelId e e0 →
      (∀ c ∈ tr, agreesExceptModelId c.engineAt e0) →
      agreesExceptModelId (handleLoop gw rng q ms mx fuel e tried a ri ci le tr).engine e0 ∧
        ∀ c ∈ (handleLoop gw rng q ms mx fuel e tried a ri ci le tr).calls,
          agreesExceptModelId c.engineAt e0 := by
  intro fuel
  induction fuel with
  | zero =>
    intro e tried a ri ci le tr he htr
    exact ⟨he, htr⟩
  | succ n ih =>
    intro e tried a ri ci le tr he htr
    simp only [handleLoop]
    split
    · split
      · exact ⟨he, htr⟩
      · split
        · exact ih e tried (a + 1) (ri + 1) ci le tr he htr
        · rename_i engine2 heq2
          have he2 : agreesExceptModelId engine2 e0 := by
            rw [switchModel_ok heq2]
            exact he
          split
          · refine ⟨he2, ?_⟩
            intro c hc
            rcases List.mem_append.mp hc with h | h
            · exact htr c h
            · simp only [List.mem_singleton] at h
              rw [h]
              exact he2
          · refine ih engine2 _ (a + 1) (ri + 1) (ci + 1) _ _ he2 ?_
            intro c hc
            rcases List.mem_append.mp hc with h | h
            · exact htr c h
            · simp only [List.mem_singleton] at h
              rw [h]
              exact he2
    · split
      · refine ⟨he, ?_⟩
        intro c hc
        rcases List.mem_append.mp hc with h | h
        · exact htr c h
        · simp only [List.mem_singleton] at h
          rw [h]
          exact he
      · refine ih e tried (a + 1) ri (ci + 1) _ _ he ?_
        intro c hc
        rcases List.mem_append.mp hc with h | h
        · exact htr c h
        · simp only [List.mem_singleton] at h
          rw [h]
          exact he

/-- The random draw is taken from the untried list. -/
theorem getD_mod_mem {l : List String} (h : ¬l.isEmpty = true) (i : Nat) :
    l.getD (i % l.length) "" ∈ l := by
  have hlen : 0 < l.length := by
    cases l with
    | nil => simp at h
    | cons x xs => simp
  have hlt : i % l.length < l.length := Nat.mod_lt _ hlen
  rw [List.getD_eq_getElem l "" hlt]
  exact List.getElem_mem hlt

/-- Membership in the filtered untried list splits into membership in the
available list and absence from the tried list. -/
theorem mem_untried {tried ms : List String} {m : String}
    (h : m ∈ ms.filter (fun x => !tried.contains x)) : m ∈ ms ∧ m ∉ tried := by
  rcases List.mem_filter.mp h with ⟨h1, h2⟩
  simp at h2
  exact ⟨h1, h2⟩

/-- Loop invariant behind the no-repeat property: the attempted models
stay pairwise distinct and models attempted at rotation attempts stay
inside the available list.  tried always contains the current model and
every model already attempted. -/
theorem handleLoop_no_repeat (gw : Gateway) (rng : Nat → Nat) (q : String)
    (ms : List String) (mx : Nat) :
    ∀ fuel e tried a ri ci le tr,
      1 ≤ a →
      (1 < a ∨ tr = []) →
      e.ModelId ∈ tried →
      (∀ m, m ∈ attemptedModels tr → m ∈ tried) →
      (attemptedModels tr).Nodup →
      (∀ c ∈ tr, 2 ≤ c.attempt → c.engineAt.ModelId ∈ ms) →
      (attemptedModels (handleLoop gw rng q ms mx fuel e tried a ri ci le tr).calls).Nodup ∧
        ∀ c ∈ (handleLoop gw rng q ms mx fuel e tried a ri ci le tr).calls,
          2 ≤ c.attempt → c.engineAt.ModelId ∈ ms := by
  intro fuel
  induction fuel with
  | zero =>
    intro e tried a ri ci le tr _ _ _ _ hN hM
    exact ⟨hN, hM⟩
  | succ n ih =>
    intro e tried a ri ci le tr ha1 hA hE hT hN hM
    simp only [handleLoop]
    split
    · rename_i hgt
      split
      · exact ⟨hN, hM⟩
      · rename_i hne
        split
        · exact ih e tried (a + 1) (ri + 1) ci le tr (by omega) (Or.inl (by omega)) hE hT hN hM
        · rename_i engine2 heq2
          have hmemu : (ms.filter (fun x => !tried.contains x)).getD
              (rng ri % (ms.filter (fun x => !tried.contains x)).length) "" ∈
              ms.filter (fun x => !tried.contains x) := getD_mod_mem hne (rng ri)
          have hnew := mem_untried hmemu
          have hid : engine2.ModelId = (ms.filter (fun x => !tried.contains x)).getD
              (rng ri % (ms.filter (fun x => !tried.contains x)).length) "" := by
            rw [switchModel_ok heq2]
          have hnodup2 : (attemptedModels (tr ++ [{ engineAt := engine2, attempt := a }])).Nodup := by
            simp only [attemptedModels, List.map_append, List.map_cons, List.map_nil]
            rw [List.nodup_append]
            refine ⟨hN, List.nodup_singleton _, ?_⟩
            intro x hx hx2
            simp only [List.mem_singleton] at hx2
            rw [hx2, hid] at hx
            exact hnew.2 (hT _ hx)
          have hmem2 : ∀ c ∈ tr ++ [{ engineAt := engine2, attempt := a }],
              2 ≤ c.attempt → c.engineAt.ModelId ∈ ms := by
            intro c hc h2
            rcases List.mem_append.mp hc with h | h
            · exact hM c h h2
            · simp only [List.mem_singleton] at h
              rw [h]
              simpa [hid] using hnew.1
          split
          · exact ⟨hnodup2, hmem2⟩
          · refine ih engine2 _ (a + 1) (ri + 1) (ci + 1) _ _ (by omega) (Or.inl (by omega))
              ?_ ?_ hnodup2 hmem2
            · rw [hid]
              exact List.mem_cons_self _ _
            · intro m hm
              simp only [attemptedModels, List.map_append, List.map_cons, List.map_nil] at hm
              rcases List.mem_append.mp hm with h | h
              · exact List.mem_cons_of_mem _ (hT m h)
              · simp only [List.mem_singleton] at h
                rw [h, hid]
                exact List.mem_cons_self _ _
    · rename_i hle
      have htr0 : tr = [] := by
        rcases hA with h | h
        · omega
        · exact h
      subst htr0
      split
      · constructor
        · simp [attemptedModels]
        · intro c hc h2
          simp only [List.nil_append, List.mem_singleton] at hc
          rw [hc] at h2
          have hat : ({ engineAt := e, attempt := a } : AttemptCall).attempt = a := rfl
          rw [hat] at h2
          omega
      · refine ih e tried (a + 1) ri (ci + 1) _ _ (by omega) (Or.inl (by omega)) hE ?_ ?_ ?_
        · intro m hm
          simp only [attemptedModels, List.nil_append, List.map_cons, List.map_nil,
            List.mem_singleton] at hm
          rw [hm]
          exact hE
        · simp [attemptedModels]
        · intro c hc h2
          simp only [List.nil_append, List.mem_singleton] at hc
          rw [hc] at h2
          have hat : ({ engineAt := e, attempt := a } : AttemptCall).attempt = a := rfl
          rw [hat] at h2
          omega

/-- A duplicate-free list contained in another list is no longer than it. -/
theorem nodup_subset_length {l1 l2 : List String} (hnd : l1.Nodup)
    (hsub : ∀ m, m ∈ l1 → m ∈ l2) : l1.length ≤ l2.length := by
  classical
  calc l1.length = l1.toFinset.card := (List.toFinset_card_of_nodup hnd).symm
    _ ≤ l2.toFinset.card := Finset.card_le_card (fun x hx => by
        rw [List.mem_toFinset] at hx ⊢
        exact hsub x hx)
    _ ≤ l2.length := l2.toFinset_card_le


/-- Step equation: first attempt, gateway fails, retries remain. -/
theorem handleLoop_first_retry (gw : Gateway) (rng : Nat → Nat) (q : String)
    (ms : List String) (mx n : Nat) (e : Engine) (tried : List String)
    (a ri ci : Nat) (le : Option GatewayError) (tr : List AttemptCall)
    (er : GatewayError)
    (hle : ¬1 < a)
    (hcall : gw ci e.GetApiKey e.BaseUrl e.ModelId q = Except.error er)
    (hlt : a < mx) :
    handleLoop gw rng q ms mx (n + 1) e tried a ri ci le tr =
      handleLoop gw rng q ms mx n e tried (a + 1) ri (ci + 1) (some er)
        (tr ++ [{ engineAt := e, attempt := a }]) := by
  simp only [handleLoop, if_neg hle, tryModel, hcall, if_pos hlt]

/-- Step equation: first attempt, gateway fails, no retries remain. -/
theorem handleLoop_first_final (gw : Gateway) (rng : Nat → Nat) (q : String)
    (ms : List String) (mx n : Nat) (e : Engine) (tried : List String)
    (a ri ci : Nat) (le : Option GatewayError) (tr : List AttemptCall)
    (er : GatewayError)
    (hle : ¬1 < a)
    (hcall : gw ci e.GetApiKey e.BaseUrl e.ModelId q = Except.error er)
    (hge : ¬a < mx) :
    handleLoop gw rng q ms mx (n + 1) e tried a ri ci le tr =
      { rsp := .error (.allAttemptsFailed er), engine := e,
        calls := tr ++ [{ engineAt := e, attempt := a }] } := by
  simp only [handleLoop, if_neg hle, tryModel, hcall, if_neg hge]

/-- Step equation: first attempt, gateway succeeds. -/
theorem handleLoop_first_ok (gw : Gateway) (rng : Nat → Nat) (q : String)
    (ms : List String) (mx n : Nat) (e : Engine) (tried : List String)
    (a ri ci : Nat) (le : Option GatewayError) (tr : List AttemptCall)
    (c : Completion)
    (hle : ¬1 < a)
    (hcall : gw ci e.GetApiKey e.BaseUrl e.ModelId q = Except.ok c) :
    handleLoop gw rng q ms mx (n + 1) e tried a ri ci le tr =
      { rsp := .ok { query := q, reply := c.reply, think := c.think,
                     model_used := e.ModelId,
                     provider_used := e.GetCurrentProviderName, attempts := a },
        engine := e, calls := tr ++ [{ engineAt := e, attempt := a }] } := by
  simp only [handleLoop, if_neg hle, tryModel, hcall]

/-- Step equation: rotation attempt with the untried list exhausted. -/
theorem handleLoop_rotate_empty (gw : Gateway) (rng : Nat → Nat) (q : String)
    (ms : List String) (mx n : Nat) (e : Engine) (tried : List String)
    (a ri ci : Nat) (le : Option GatewayError) (tr : List AttemptCall)
    (hgt : 1 < a)
    (hemp : (ms.filter (fun m => !tried.contains m)).isEmpty = true) :
    handleLoop gw rng q ms mx (n + 1) e tried a ri ci le tr =
      { rsp := .error .unknownExit, engine := e, calls := tr } := by
  simp only [handleLoop, if_pos hgt, hemp, if_true]


/-- Step equation: rotation attempt, switch succeeds, gateway fails,
retries remain.  nid abbreviates the random draw from the untried list. -/
theorem handleLoop_rotate_retry (gw : Gateway) (rng : Nat → Nat) (q : String)
    (ms : List String) (mx n : Nat) (e : Engine) (tried : List String)
    (a ri ci : Nat) (le : Option GatewayError) (tr : List AttemptCall)
    (nid : String) (e2 : Engine) (er : GatewayError)
    (hgt : 1 < a)
    (hne : ¬(ms.filter (fun m => !tried.contains m)).isEmpty = true)
    (hnid : (ms.filter (fun m => !tried.contains m)).getD
      (rng ri % (ms.filter (fun m => !tried.contains m)).length) "" = nid)
    (hsw : e.SwitchModel nid = Except.ok e2)
    (hcall : gw ci e2.GetApiKey e2.BaseUrl e2.ModelId q = Except.error er)
    (hlt : a < mx) :
    handleLoop gw rng q ms mx (n + 1) e tried a ri ci le tr =
      handleLoop gw rng q ms mx n e2 (nid :: tried)
        (a + 1) (ri + 1) (ci + 1) (some er)
        (tr ++ [{ engineAt := e2, attempt := a }]) := by
  subst hnid
  simp only [handleLoop, if_pos hgt, hne, if_false, Bool.false_eq_true, hsw, tryModel,
    hcall, if_pos hlt]

/-- Step equation: rotation attempt, switch succeeds, gateway fails, no
retries remain. -/
theorem handleLoop_rotate_final (gw : Gateway) (rng : Nat → Nat) (q : String)
    (ms : List String) (mx n : Nat) (e : Engine) (tried : List String)
    (a ri ci : Nat) (le : Option GatewayError) (tr : List AttemptCall)
    (nid : String) (e2 : Engine) (er : GatewayError)
    (hgt : 1 < a)
    (hne : ¬(ms.filter (fun m => !tried.contains m)).isEmpty = true)
    (hnid : (ms.filter (fun m => !tried.contains m)).getD
      (rng ri % (ms.filter (fun m => !tried.contains m)).length) "" = nid)
    (hsw : e.SwitchModel nid = Except.ok e2)
    (hcall : gw ci e2.GetApiKey e2.BaseUrl e2.ModelId q = Except.error er)
    (hge : ¬a < mx) :
    handleLoop gw rng q ms mx (n + 1) e tried a ri ci le tr =
      { rsp := .error (.allAttemptsFailed er), engine := e2,
        calls := tr ++ [{ engineAt := e2, attempt := a }] } := by
  subst hnid
  simp only [handleLoop, if_pos hgt, hne, if_false, Bool.false_eq_true, hsw, tryModel,
    hcall, if_neg hge]

/-- Step equation: rotation attempt, switch succeeds, gateway succeeds. -/
theorem handleLoop_rotate_ok (gw : Gateway) (rng : Nat → Nat) (q : String)
    (ms : List String) (mx n : Nat) (e : Engine) (tried : List String)
    (a ri ci : Nat) (le : Option GatewayError) (tr : List AttemptCall)
    (nid : String) (e2 : Engine) (c : Completion)
    (hgt : 1 < a)
    (hne : ¬(ms.filter (fun m => !tried.contains m)).isEmpty = true)
    (hnid : (ms.filter (fun m => !tried.contains m)).getD
      (rng ri % (ms.filter (fun m => !tried.contains m)).length) "" = nid)
    (hsw : e.SwitchModel nid = Except.ok e2)
    (hcall : gw ci e2.GetApiKey e2.BaseUrl e2.ModelId q = Except.ok c) :
    handleLoop gw rng q ms mx (n + 1) e tried a ri ci le tr =
      { rsp := .ok { query := q, reply := c.reply, think := c.think,
                     model_used := e2.ModelId,
                     provider_used := e2.GetCurrentProviderName, attempts := a },
        engine := e2, calls := tr ++ [{ engineAt := e2, attempt := a }] } := by
  subst hnid
  simp only [handleLoop, if_pos hgt, hne, if_false, Bool.false_eq_true, hsw, tryModel, hcall]

/-- When every gateway call fails (the i-th call failing with error f i)
and the available models are duplicate-free, the loop never exhausts the
untried models early: it runs for exactly its fuel, makes one failing
gateway call per iteration, and ends in the all-attempts-failed error
wrapping the error of the last call made. -/
theorem handleLoop_all_fail (gw : Gateway) (rng : Nat → Nat) (q : String)
    (ms : List String) (mx : Nat) (e0 : Engine) (cfg : Config) (p : ProviderConfig)
    (f : Nat → GatewayError)
    (hgw : ∀ i k b m qq, gw i k b m qq = Except.error (f i))
    (hc0 : e0.config = some cfg)
    (hp0 : cfg.GetProviderByName e0.providerName = some p)
    (hmodels : p.Model = ms)
    (hnodup : ms.Nodup)
    (hmx : mx ≤ ms.length) :
    ∀ fuel e tried a ri ci le tr,
      a + fuel = mx + 1 →
      1 ≤ fuel →
      agreesExceptModelId e e0 →
      tried.Nodup →
      (∀ m, m ∈ tried → m ∈ ms) →
      ((a = 1 ∧ tried.length = 1) ∨ (2 ≤ a ∧ tried.length = a - 1)) →
      (handleLoop gw rng q ms mx fuel e tried a ri ci le tr).rsp =
          Except.error (.allAttemptsFailed (f (ci + fuel - 1))) ∧
        (handleLoop gw rng q ms mx fuel e tried a ri ci le tr).calls.length =
          tr.length + fuel := by
  intro fuel
  induction fuel with
  | zero =>
    intro e tried a ri ci le tr hsum hf
    omega
  | succ n ih =>
    intro e tried a ri ci le tr hsum hf he hnd hsub hinv
    by_cases hgt : 1 < a
    · have hlen : tried.length = a - 1 := by
        rcases hinv with ⟨h1, _⟩ | ⟨_, h2⟩
        · omega
        · exact h2
      have hne : ¬(ms.filter (fun m => !tried.contains m)).isEmpty = true := by
        intro hemp
        rw [List.isEmpty_iff] at hemp
        have hsub2 : ∀ m, m ∈ ms → m ∈ tried := by
          intro m hm
          have h3 := List.filter_eq_nil_iff.mp hemp m hm
          simp at h3
          exact h3
        have := nodup_subset_length hnodup hsub2
        omega
      obtain ⟨nid, hnid⟩ : ∃ nid, (ms.filter (fun m => !tried.contains m)).getD
          (rng ri % (ms.filter (fun m => !tried.contains m)).length) "" = nid :=
        ⟨_, rfl⟩
      have hmemu : nid ∈ ms.filter (fun m => !tried.contains m) := by
        rw [← hnid]
        exact getD_mod_mem hne (rng ri)
      have hnew := mem_untried hmemu
      have hce : e.config = some cfg := by
        rw [he.2.2.2.1, hc0]
      have hpe : cfg.GetProviderByName e.providerName = some p := by
        rw [he.2.2.2.2, hp0]
      have hm2 : p.HasModel nid = true := by
        refine hasModel_of_mem ?_
        rw [hmodels]
        exact hnew.1
      have hsw := switchModel_succeeds hce hpe hm2
      by_cases hcmp : a < mx
      · rw [handleLoop_rotate_retry gw rng q ms mx n e tried a ri ci le tr nid
          { e with ModelId := nid } (f ci) hgt hne hnid hsw (hgw ci _ _ _ _) hcmp]
        have hrec := ih { e with ModelId := nid } (nid :: tried) (a + 1) (ri + 1) (ci + 1)
          (some (f ci))
          (tr ++ [{ engineAt := { e with ModelId := nid }, attempt := a }])
          (by omega) (by omega) he
          (List.nodup_cons.mpr ⟨hnew.2, hnd⟩)
          (by
            intro m hm
            rcases List.mem_cons.mp hm with h | h
            · rw [h]
              exact hnew.1
            · exact hsub m h)
          (Or.inr ⟨by omega, by
            simp only [List.length_cons, hlen]
            omega⟩)
        refine ⟨?_, ?_⟩
        · have hix : ci + (n + 1) - 1 = ci + 1 + n - 1 := by omega
          rw [hix]
          exact hrec.1
        · rw [hrec.2]
          simp only [List.length_append, List.length_singleton]
          omega
      · rw [handleLoop_rotate_final gw rng q ms mx n e tried a ri ci le tr nid
          { e with ModelId := nid } (f ci) hgt hne hnid hsw (hgw ci _ _ _ _) hcmp]
        have hn0 : n = 0 := by omega
        subst hn0
        refine ⟨rfl, ?_⟩
        simp only [List.length_append, List.length_singleton]
    · by_cases hcmp : a < mx
      · rw [handleLoop_first_retry gw rng q ms mx n e tried a ri ci le tr (f ci)
          hgt (hgw ci _ _ _ _) hcmp]
        have hrec := ih e tried (a + 1) ri (ci + 1) (some (f ci))
          (tr ++ [{ engineAt := e, attempt := a }])
          (by omega) (by omega) he hnd hsub
          (by
            rcases hinv with ⟨h1, h2⟩ | ⟨h2, _⟩
            · exact Or.inr ⟨by omega, by omega⟩
            · omega)
        refine ⟨?_, ?_⟩
        · have hix : ci + (n + 1) - 1 = ci + 1 + n - 1 := by omega
          rw [hix]
          exact hrec.1
        · rw [hrec.2]
          simp only [List.length_append, List.length_singleton]
          omega
      · rw [handleLoop_first_final gw rng q ms mx n e tried a ri ci le tr (f ci)
          hgt (hgw ci _ _ _ _) hcmp]
        have hn0 : n = 0 := by omega
        subst hn0
        refine ⟨rfl, ?_⟩
        simp only [List.length_append, List.length_singleton]

/-- Handle, unfolded once: under a successfully parsed prompt and a
resolvable model list it is the loop run with fuel maxAttempts, followed
by the deferred restoration of the original model id. -/
theorem handle_eq_loop (gw : Gateway) (rng : Nat → Nat) (e : Engine) (params q : String)
    (ms : List String)
    (hq : parsePrompt params = Except.ok q)
    (hm : e.GetAvailableModels = Except.ok ms) :
    QueryHandler.Handle gw rng e params =
      { rsp := (handleLoop gw rng q ms (if ms.length < 3 then ms.length else 3)
          (if ms.length < 3 then ms.length else 3) e [e.ModelId] 1 0 0 none []).rsp,
        engine := { (handleLoop gw rng q ms (if ms.length < 3 then ms.length else 3)
          (if ms.length < 3 then ms.length else 3) e [e.ModelId] 1 0 0 none []).engine
          with ModelId := e.ModelId },
        calls := (handleLoop gw rng q ms (if ms.length < 3 then ms.length else 3)
          (if ms.length < 3 then ms.length else 3) e [e.ModelId] 1 0 0 none []).calls } := by
  simp only [QueryHandler.Handle, hq, hm]

/-! ## Concrete instances used by counterexamples and witnesses -/

/-- Configuration with the single provider A carrying models m1 m2 m3. -/
def cfgA : Config :=
  { Provider := [{ Name := "A", ApiKey := "key", BaseUrl := "url",
                   Model := ["m1", "m2", "m3"] }] }

/-- Engine initialized on provider A with current model m1. -/
def engA : Engine :=
  { ModelId := "m1", BaseUrl := "url", apiKey := "key", configPath := "/conf.yaml",
    config := some cfgA, providerName := "A" }

/-- Configuration whose single provider lists the same model twice. -/
def cfgDup : Config :=
  { Provider := [{ Name := "A", ApiKey := "key", BaseUrl := "url",
                   Model := ["m1", "m1"] }] }

/-- Engine initialized on the duplicate-model configuration. -/
def engDup : Engine :=
  { ModelId := "m1", BaseUrl := "url", apiKey := "key", configPath := "/conf.yaml",
    config := some cfgDup, providerName := "A" }

/-- Gateway whose every call fails. -/
def gwAllFail : Gateway := fun _ _ _ _ _ => .error "boom"

/-- Gateway failing exactly on model m1. -/
def gwFailM1 : Gateway := fun _ _ _ m _ =>
  if m == "m1" then .error "e1" else .ok { reply := "r", think := "t" }

/-- Constant-zero random stream. -/
def rngZero : Nat → Nat := fun _ => 0

/-! ## Claim theorems -/

/-- C1: for every engine state and every sequence of gateway outcomes,
after QueryHandler.Handle returns, the engine's ModelId equals the
original model id recorded at entry: the deferred restoration runs on
every exit path of the attempt loop (the embedding is total, so the
panic-equivalent exits of the Go code are the same record write), and on
the error paths before the loop the model id was never written. -/
theorem dispatchQuery_restores_original_model (gw : Gateway) (rng : Nat → Nat)
    (e : Engine) (params : String) :
    (QueryHandler.Handle gw rng e params).engine.ModelId = e.ModelId := by
  unfold QueryHandler.Handle
  cases hq : parsePrompt params with
  | error u => rfl
  | ok q =>
    cases hm : e.GetAvailableModels with
    | error er => rfl
    | ok ms => rfl

/-- C2: one invocation of QueryHandler.Handle issues at most
min(3, number of available models) gateway calls, the available models
being the current provider's model list. -/
theorem dispatchQuery_attempt_bound (gw : Gateway) (rng : Nat → Nat) (e : Engine)
    (params : String) (ms : List String)
    (h : e.GetAvailableModels = Except.ok ms) :
    (QueryHandler.Handle gw rng e params).calls.length ≤ min 3 ms.length := by
  cases hq : parsePrompt params with
  | error u =>
    unfold QueryHandler.Handle
    rw [hq]
    simp
  | ok q =>
    rw [handle_eq_loop gw rng e params q ms hq h]
    have h1 := handleLoop_calls_length gw rng q ms (if ms.length < 3 then ms.length else 3)
      (if ms.length < 3 then ms.length else 3) e [e.ModelId] 1 0 0 none []
    have h2 : (if ms.length < 3 then ms.length else 3) = min 3 ms.length :=
      maxAttempts_eq_min _
    simp only [List.length_nil] at h1
    exact le_trans h1 (by omega)

/-- Witness for C2 at a concrete engine and gateway. -/
theorem dispatchQuery_attempt_bound_witness :
    engA.GetAvailableModels = Except.ok ["m1", "m2", "m3"] ∧
      (QueryHandler.Handle gwAllFail rngZero engA "hi").calls.length ≤
        min 3 ["m1", "m2", "m3"].length :=
  ⟨by decide, dispatchQuery_attempt_bound gwAllFail rngZero engA "hi" _ (by decide)⟩

/-- C10: the dispatcher never writes any engine field other than ModelId:
the engine state at every recorded gateway call and the engine state after
return agree with the entry state on provider name, API key, base URL,
configuration path and loaded configuration. -/
theorem dispatchQuery_frame_effect (gw : Gateway) (rng : Nat → Nat) (e : Engine)
    (params : String) :
    agreesExceptModelId (QueryHandler.Handle gw rng e params).engine e ∧
      ∀ c ∈ (QueryHandler.Handle gw rng e params).calls,
        agreesExceptModelId c.engineAt e := by
  cases hq : parsePrompt params with
  | error u =>
    unfold QueryHandler.Handle
    rw [hq]
    refine ⟨⟨rfl, rfl, rfl, rfl, rfl⟩, ?_⟩
    intro c hc
    simp at hc
  | ok q =>
    cases hm : e.GetAvailableModels with
    | error er =>
      unfold QueryHandler.Handle
      rw [hq, hm]
      refine ⟨⟨rfl, rfl, rfl, rfl, rfl⟩, ?_⟩
      intro c hc
      simp at hc
    | ok ms =>
      rw [handle_eq_loop gw rng e params q ms hq hm]
      have hfr := handleLoop_frame gw rng q ms (if ms.length < 3 then ms.length else 3) e
        (if ms.length < 3 then ms.length else 3) e [e.ModelId] 1 0 0 none []
        ⟨rfl, rfl, rfl, rfl, rfl⟩ (by intro c hc; simp at hc)
      exact ⟨hfr.1, hfr.2⟩

/-- C4: within one invocation no model identifier is ever passed to the
gateway twice (the code stops rather than repeating even after
exhaustion, which implies the claim), and every model attempted at a
rotation attempt (attempt number at least 2) is drawn from the available
model list, from which the tried ones were filtered out. -/
theorem dispatchQuery_no_repeat (gw : Gateway) (rng : Nat → Nat) (e : Engine)
    (params : String) (ms : List String)
    (h : e.GetAvailableModels = Except.ok ms) :
    (attemptedModels (QueryHandler.Handle gw rng e params).calls).Nodup ∧
      ∀ c ∈ (QueryHandler.Handle gw rng e params).calls,
        2 ≤ c.attempt → c.engineAt.ModelId ∈ ms := by
  cases hq : parsePrompt params with
  | error u =>
    unfold QueryHandler.Handle
    rw [hq]
    constructor
    · simp [attemptedModels]
    · intro c hc
      simp at hc
  | ok q =>
    rw [handle_eq_loop gw rng e params q ms hq h]
    exact handleLoop_no_repeat gw rng q ms (if ms.length < 3 then ms.length else 3)
      (if ms.length < 3 then ms.length else 3) e [e.ModelId] 1 0 0 none []
      (by omega) (Or.inr rfl) (List.mem_singleton_self _)
      (by intro m hm; simp [attemptedModels] at hm)
      (by simp [attemptedModels]) (by intro c hc; simp at hc)

/-- Witness for C4 at a concrete engine and gateway: three calls, three
distinct models. -/
theorem dispatchQuery_no_repeat_witness :
    engA.GetAvailableModels = Except.ok ["m1", "m2", "m3"] ∧
      (attemptedModels (QueryHandler.Handle gwAllFail rngZero engA "hi").calls).Nodup ∧
      ∀ c ∈ (QueryHandler.Handle gwAllFail rngZero engA "hi").calls,
        2 ≤ c.attempt → c.engineAt.ModelId ∈ ["m1", "m2", "m3"] :=
  ⟨by decide, dispatchQuery_no_repeat gwAllFail rngZero engA "hi" _ (by decide)⟩

/-- Response projection of the unfolded Handle. -/
theorem handle_rsp_eq (gw : Gateway) (rng : Nat → Nat) (e : Engine) (params q : String)
    (ms : List String)
    (hq : parsePrompt params = Except.ok q)
    (hm : e.GetAvailableModels = Except.ok ms) :
    (QueryHandler.Handle gw rng e params).rsp =
      (handleLoop gw rng q ms (if ms.length < 3 then ms.length else 3)
        (if ms.length < 3 then ms.length else 3) e [e.ModelId] 1 0 0 none []).rsp := by
  rw [handle_eq_loop gw rng e params q ms hq hm]

/-- Calls projection of the unfolded Handle. -/
theorem handle_calls_eq (gw : Gateway) (rng : Nat → Nat) (e : Engine) (params q : String)
    (ms : List String)
    (hq : parsePrompt params = Except.ok q)
    (hm : e.GetAvailableModels = Except.ok ms) :
    (QueryHandler.Handle gw rng e params).calls =
      (handleLoop gw rng q ms (if ms.length < 3 then ms.length else 3)
        (if ms.length < 3 then ms.length else 3) e [e.ModelId] 1 0 0 none []).calls := by
  rw [handle_eq_loop gw rng e params q ms hq hm]

/-- C3 counterexample: on the duplicate-model configuration the first
gateway call fails and at attempt 2 no untried model remains (both list
entries are the already-tried m1), so the loop breaks early.  The
returned error is the generic unknown-exit error, a constructor carrying
no gateway error at all, not the all-attempts-failed error wrapping the
last recorded gateway error that the claim requires; exactly one failing
gateway call had been recorded. -/
theorem dispatchQuery_early_stop_unknown_error :
    (QueryHandler.Handle gwAllFail rngZero engDup "hi").rsp =
        Except.error HandleError.unknownExit ∧
      (QueryHandler.Handle gwAllFail rngZero engDup "hi").calls.length = 1 := by
  decide

/-- C3 amended: when the attempt loop runs to maxAttempts with every
gateway call failing — which is what happens whenever the available model
list is duplicate-free and contains the starting model — Handle fails
with the all-attempts-failed error wrapping the error of the last
gateway call, after exactly min 3 (number of models) calls.  (When the
untried models are exhausted early instead, possible only with duplicate
list entries, the code returns the generic unknown error that wraps
nothing: see the counterexample.) -/
theorem dispatchQuery_all_fail_wraps_last (gw : Gateway) (rng : Nat → Nat) (e : Engine)
    (params q : String) (ms : List String) (cfg : Config) (p : ProviderConfig)
    (f : Nat → GatewayError)
    (hq : parsePrompt params = Except.ok q)
    (hc : e.config = some cfg)
    (hp : cfg.GetProviderByName e.providerName = some p)
    (hms : p.Model = ms)
    (hnd : ms.Nodup)
    (hmem : e.ModelId ∈ ms)
    (hgw : ∀ i k b m qq, gw i k b m qq = Except.error (f i)) :
    (QueryHandler.Handle gw rng e params).rsp =
        Except.error (.allAttemptsFailed (f (min 3 ms.length - 1))) ∧
      (QueryHandler.Handle gw rng e params).calls.length = min 3 ms.length := by
  have hm : e.GetAvailableModels = Except.ok ms := by
    rw [getAvailableModels_eq hc hp, hms]
  have hlen1 : 1 ≤ ms.length := List.length_pos.mpr (List.ne_nil_of_mem hmem)
  have h2 : (if ms.length < 3 then ms.length else 3) = min 3 ms.length :=
    maxAttempts_eq_min _
  have hall := handleLoop_all_fail gw rng q ms (if ms.length < 3 then ms.length else 3)
    e cfg p f hgw hc hp hms hnd (by omega)
    (if ms.length < 3 then ms.length else 3) e [e.ModelId] 1 0 0 none []
    (by omega) (by omega) ⟨rfl, rfl, rfl, rfl, rfl⟩ (List.nodup_singleton _)
    (by
      intro m hm2
      simp at hm2
      rw [hm2]
      exact hmem)
    (Or.inl ⟨rfl, rfl⟩)
  constructor
  · rw [handle_rsp_eq gw rng e params q ms hq hm, hall.1, h2]
    simp
  · rw [handle_calls_eq gw rng e params q ms hq hm, hall.2, h2]
    simp

/-- Witness for the amended C3 at a concrete engine and gateway. -/
theorem dispatchQuery_all_fail_wraps_last_witness :
    (QueryHandler.Handle gwAllFail rngZero engA "hi").rsp =
        Except.error (HandleError.allAttemptsFailed "boom") ∧
      (QueryHandler.Handle gwAllFail rngZero engA "hi").calls.length = 3 := by
  have h := dispatchQuery_all_fail_wraps_last gwAllFail rngZero engA "hi" "hi"
    ["m1", "m2", "m3"] cfgA
    { Name := "A", ApiKey := "key", BaseUrl := "url", Model := ["m1", "m2", "m3"] }
    (fun _ => "boom") (by decide) rfl rfl rfl (by decide) (by decide)
    (fun i k b m qq => rfl)
  exact ⟨h.1, h.2⟩

/-- C6 counterexample: on the Go zero-value engine (configuration not
loaded) the plain accessors GetCurrentProviderName, GetApiKey and
GetConfigPath return the empty string as a normal result — they have no
failure path at all — contradicting the claim that every engine
operation fails with the config-not-loaded error before initialization. -/
theorem uninit_accessors_return_normally :
    Engine.uninit.GetCurrentProviderName = "" ∧ Engine.uninit.GetApiKey = "" ∧
      Engine.uninit.GetConfigPath = "" := by
  decide

/-- C6 amended: on an engine whose configuration is not loaded, every
operation that consults the configuration (GetAvailableProviders,
GetAvailableModels, GetAllModels, GetAllProvidersInfo, SwitchProvider,
SwitchModel) fails with the config-not-loaded error; the plain accessors
(current provider name, API key, config path) return zero-value strings
without failing. -/
theorem uninit_config_ops_fail (e : Engine) (h : e.config = none) :
    e.GetAvailableProviders = Except.error EngineError.configNotLoaded ∧
      e.GetAvailableModels = Except.error EngineError.configNotLoaded ∧
      e.GetAllModels = Except.error EngineError.configNotLoaded ∧
      e.GetAllProvidersInfo = Except.error EngineError.configNotLoaded ∧
      (∀ pn mid, e.SwitchProvider pn mid = Except.error EngineError.configNotLoaded) ∧
      (∀ mid, e.SwitchModel mid = Except.error EngineError.configNotLoaded) := by
  unfold Engine.GetAvailableProviders Engine.GetAvailableModels Engine.GetAllModels
    Engine.GetAllProvidersInfo Engine.SwitchProvider Engine.SwitchModel
  simp only [h]
  simp

/-- Witness for the amended C6 at the zero-value engine. -/
theorem uninit_config_ops_fail_witness :
    Engine.uninit.config = none ∧
      Engine.uninit.GetAvailableModels = Except.error EngineError.configNotLoaded :=
  ⟨rfl, (uninit_config_ops_fail Engine.uninit rfl).2.1⟩

/-- Configuration with one provider whose API key is the parameter. -/
def cfgKey (k : String) : Config :=
  { Provider := [{ Name := "A", ApiKey := k, BaseUrl := "url", Model := ["m1"] }] }

/-- Engine over cfgKey; the engine's own denormalized apiKey copy is held
fixed so that the two instances differ only in the provider record's
api_key field. -/
def engKey (k : String) : Engine :=
  { ModelId := "m1", BaseUrl := "url", apiKey := "k0", configPath := "/conf.yaml",
    config := some (cfgKey k), providerName := "A" }

/-- C7 counterexample: two engines whose configurations differ only in a
provider's api_key produce different GetAllProvidersInfo views, so the
returned view is not independent of credentials: the full record,
api_key included, is exposed. -/
theorem allProvidersInfo_depends_on_api_key :
    (engKey "secret1").GetAllProvidersInfo ≠ (engKey "secret2").GetAllProvidersInfo := by
  decide

/-- C7 amended: GetAllProvidersInfo returns, for every configured
provider, the provider's complete record verbatim — name, base URL,
model list and the api_key credential — keyed by provider name; the view
does include credentials. -/
theorem allProvidersInfo_full_records (e : Engine) (cfg : Config)
    (h : e.config = some cfg) :
    e.GetAllProvidersInfo = Except.ok (cfg.Provider.map (fun p => (p.Name, p))) := by
  unfold Engine.GetAllProvidersInfo
  simp only [h]

/-- Witness for the amended C7 at a concrete engine. -/
theorem allProvidersInfo_full_records_witness :
    (engKey "secret1").config = some (cfgKey "secret1") ∧
      (engKey "secret1").GetAllProvidersInfo =
        Except.ok ((cfgKey "secret1").Provider.map (fun p => (p.Name, p))) :=
  ⟨rfl, allProvidersInfo_full_records (engKey "secret1") (cfgKey "secret1") rfl⟩

/-- C8: on an initialized engine (loaded configuration with a resolvable
current provider), SwitchModel of an id outside the current provider's
model list fails with the unsupported-model error — the functional
embedding returns no new state, mirroring the Go code's return before
any assignment, so the engine is unchanged — and SwitchModel of a member
succeeds and updates only ModelId, every other field kept verbatim. -/
theorem switchModel_validates_and_updates (e : Engine) (cfg : Config)
    (p : ProviderConfig)
    (hc : e.config = some cfg) (hp : cfg.GetProviderByName e.providerName = some p)
    (m : String) :
    (m ∉ p.Model →
      e.SwitchModel m = Except.error (EngineError.unsupportedModel e.providerName m)) ∧
      (m ∈ p.Model → e.SwitchModel m = Except.ok { e with ModelId := m }) := by
  constructor
  · intro hnm
    have hhm : p.HasModel m = false := by
      simp only [ProviderConfig.HasModel, List.any_eq_false]
      intro x hx
      simp only [beq_iff_eq]
      intro hxe
      exact hnm (hxe ▸ hx)
    unfold Engine.SwitchModel
    simp only [hc, hp, hhm, Bool.false_eq_true, if_false]
  · intro hm
    exact switchModel_succeeds hc hp (hasModel_of_mem hm)

/-- Witness for C8: a rejected and an accepted switch on a concrete
engine. -/
theorem switchModel_validates_and_updates_witness :
    engA.SwitchModel "mX" = Except.error (EngineError.unsupportedModel "A" "mX") ∧
      engA.SwitchModel "m2" = Except.ok { engA with ModelId := "m2" } :=
  ⟨(switchModel_validates_and_updates engA cfgA
      { Name := "A", ApiKey := "key", BaseUrl := "url", Model := ["m1", "m2", "m3"] }
      rfl rfl "mX").1 (by decide),
    (switchModel_validates_and_updates engA cfgA
      { Name := "A", ApiKey := "key", BaseUrl := "url", Model := ["m1", "m2", "m3"] }
      rfl rfl "m2").2 (by decide)⟩


/-- C5: prompt extraction of the query handler: valid JSON parameter
text goes through unmarshalling of the query field (an unmarshal failure
propagating as the handler's error), any other text is the prompt
verbatim; in particular the JSON object encoding of hello and the bare
text hello yield the identical prompt. -/
theorem prompt_extraction_spec :
    (∀ s, jsonValid s = false → parsePrompt s = Except.ok s) ∧
      (∀ s, jsonValid s = true → parsePrompt s = unmarshalQueryReq s) ∧
      parsePrompt "\x7b\"query\":\"hello\"\x7d" = Except.ok "hello" ∧
      parsePrompt "hello" = Except.ok "hello" := by
  refine ⟨?_, ?_, ?_, ?_⟩
  · intro s hs
    simp [parsePrompt, hs]
  · intro s hs
    simp [parsePrompt, hs]
  · decide
  · decide

/-- Witness for C5: the non-JSON branch applied at concrete text. -/
theorem prompt_extraction_spec_witness :
    jsonValid "plain text" = false ∧ parsePrompt "plain text" = Except.ok "plain text" :=
  ⟨by decide, prompt_extraction_spec.1 "plain text" (by decide)⟩

/-- C9: with provider A holding models m1 m2 m3 and starting model m1, a
gateway that fails on m1 and succeeds on every other model makes Handle
return a result with attempts = 2 and model_used different from m1, and
the engine's current model id is m1 again after the call — for every
random stream. -/
theorem rotation_scenario_success_second_attempt (gw : Gateway) (rng : Nat → Nat)
    (hfail : ∀ i k b qq, ∃ er, gw i k b "m1" qq = Except.error er)
    (hok : ∀ i k b m qq, m ≠ "m1" → ∃ c, gw i k b m qq = Except.ok c) :
    (∃ r, (QueryHandler.Handle gw rng engA "hi").rsp = Except.ok r ∧
        r.attempts = 2 ∧ r.model_used ≠ "m1") ∧
      (QueryHandler.Handle gw rng engA "hi").engine.ModelId = "m1" := by
  have hq : parsePrompt "hi" = Except.ok "hi" := by decide
  have hm : engA.GetAvailableModels = Except.ok ["m1", "m2", "m3"] := by decide
  have h0 : (QueryHandler.Handle gw rng engA "hi").rsp =
      (handleLoop gw rng "hi" ["m1", "m2", "m3"] 3 3 engA ["m1"] 1 0 0 none []).rsp :=
    handle_rsp_eq gw rng engA "hi" "hi" ["m1", "m2", "m3"] hq hm
  constructor
  · obtain ⟨e1, he1⟩ := hfail 0 "key" "url" "hi"
    have hstep1 : handleLoop gw rng "hi" ["m1", "m2", "m3"] 3 3 engA ["m1"] 1 0 0 none [] =
        handleLoop gw rng "hi" ["m1", "m2", "m3"] 3 2 engA ["m1"] 2 0 1 (some e1)
          [{ engineAt := engA, attempt := 1 }] :=
      handleLoop_first_retry gw rng "hi" ["m1", "m2", "m3"] 3 2 engA ["m1"]
        1 0 0 none [] e1 (by omega) he1 (by omega)
    rcases Nat.mod_two_eq_zero_or_one (rng 0) with hr | hr
    · have hsw : engA.SwitchModel "m2" = Except.ok { engA with ModelId := "m2" } := by
        decide
      obtain ⟨c2, hc2⟩ := hok 1 "key" "url" "m2" "hi" (by decide)
      have hstep2 : handleLoop gw rng "hi" ["m1", "m2", "m3"] 3 2 engA ["m1"] 2 0 1
          (some e1) [{ engineAt := engA, attempt := 1 }] =
          { rsp := Except.ok
              { query := "hi", reply := c2.reply, think := c2.think,
                model_used := "m2", provider_used := "A", attempts := 2 },
            engine := { engA with ModelId := "m2" },
            calls := [{ engineAt := engA, attempt := 1 },
              { engineAt := { engA with ModelId := "m2" }, attempt := 2 }] } :=
        handleLoop_rotate_ok gw rng "hi" ["m1", "m2", "m3"] 3 1 engA ["m1"]
          2 0 1 (some e1) [{ engineAt := engA, attempt := 1 }] "m2"
          { engA with ModelId := "m2" } c2 (by omega) (by decide)
          (by
            show (["m2", "m3"] : List String).getD (rng 0 % 2) "" = "m2"
            rw [hr]
            rfl)
          hsw hc2
      refine ⟨_, h0.trans (congrArg DispatchOutcome.rsp (hstep1.trans hstep2)), rfl, ?_⟩
      show ("m2" : String) ≠ "m1"
      decide
    · have hsw : engA.SwitchModel "m3" = Except.ok { engA with ModelId := "m3" } := by
        decide
      obtain ⟨c2, hc2⟩ := hok 1 "key" "url" "m3" "hi" (by decide)
      have hstep2 : handleLoop gw rng "hi" ["m1", "m2", "m3"] 3 2 engA ["m1"] 2 0 1
          (some e1) [{ engineAt := engA, attempt := 1 }] =
          { rsp := Except.ok
              { query := "hi", reply := c2.reply, think := c2.think,
                model_used := "m3", provider_used := "A", attempts := 2 },
            engine := { engA with ModelId := "m3" },
            calls := [{ engineAt := engA, attempt := 1 },
              { engineAt := { engA with ModelId := "m3" }, attempt := 2 }] } :=
        handleLoop_rotate_ok gw rng "hi" ["m1", "m2", "m3"] 3 1 engA ["m1"]
          2 0 1 (some e1) [{ engineAt := engA, attempt := 1 }] "m3"
          { engA with ModelId := "m3" } c2 (by omega) (by decide)
          (by
            show (["m2", "m3"] : List String).getD (rng 0 % 2) "" = "m3"
            rw [hr]
            rfl)
          hsw hc2
      refine ⟨_, h0.trans (congrArg DispatchOutcome.rsp (hstep1.trans hstep2)), rfl, ?_⟩
      show ("m3" : String) ≠ "m1"
      decide
  · rw [handle_eq_loop gw rng engA "hi" "hi" ["m1", "m2", "m3"] hq hm]
    rfl

/-- Witness for C9 at the concrete gateway failing exactly on m1 and the
constant-zero random stream. -/
theorem rotation_scenario_success_second_attempt_witness :
    (∃ r, (QueryHandler.Handle gwFailM1 rngZero engA "hi").rsp = Except.ok r ∧
        r.attempts = 2 ∧ r.model_used ≠ "m1") ∧
      (QueryHandler.Handle gwFailM1 rngZero engA "hi").engine.ModelId = "m1" :=
  rotation_scenario_success_second_attempt gwFailM1 rngZero
    (fun i k b qq => ⟨"e1", rfl⟩)
    (fun i k b m qq hm => ⟨{ reply := "r", think := "t" }, by
      simp only [gwFailM1, beq_iff_eq]
      rw [if_neg hm]⟩)

/-- Witness for C10 at a concrete run: the frame agreement for the final
engine and for the engine state of the first recorded gateway call. -/
theorem dispatchQuery_frame_effect_witness :
    agreesExceptModelId (QueryHandler.Handle gwAllFail rngZero engA "hi").engine engA ∧
      agreesExceptModelId ({ engineAt := engA, attempt := 1 } : AttemptCall).engineAt engA :=
  ⟨(dispatchQuery_frame_effect gwAllFail rngZero engA "hi").1,
    (dispatchQuery_frame_effect gwAllFail rngZero engA "hi").2
      { engineAt := engA, attempt := 1 } (by decide)⟩
